import Mathlib

/-!
Verification of the epistemic-infrastructural diagram editor
(`epistemic_infrastructure_app.py`).

Shallow embedding conventions:

* Python `str` is `String`, Python `int` is `Int`, Python `bool` is `Bool`.
* A Python `dict` (as used for label maps and for `circle_positions`) is an
  association list `List (String × α)` with unique keys, maintained through
  `dictInsert`, which models `d[k] = v`: it updates the existing entry in
  place when the key is present and appends otherwise, exactly the
  insertion-order semantics of CPython dicts.
* JSON text is modelled by the inductive `Json` tree: `json.dumps` followed
  by `json.loads` is the identity on the tree, so `to_json`/`from_json` are
  embedded as `DiagramConfig → Json` and `Json → Option DiagramConfig`.
  `Json.obj` field lists are key-unique, as produced by `json.loads`.
  Python operations that raise (`raw["k"]` on a missing key, `Edge(**e)` on
  a malformed record, `tuple(x)` on a non-iterable) are modelled by `none`.
  The decoder is embedded twice: `from_json` restricts the code to the
  statically-typed configurations the rest of the app manipulates (its
  extra type checks never reject an encoder image), while `from_json_dyn`
  is the dynamically-typed exact image of the Python code — it stores
  node-list, label and optional values unchecked, iterates dicts as their
  keys and strings as their characters, and fails precisely where the
  source raises.
* Floating point trigonometry (`math.cos`, `math.sin`, `math.radians`) is
  idealised over `ℝ`; Python `int()` applied to a float is truncation
  toward zero, embedded as `itrunc`.
* The Streamlit handlers (update inner/outer order, set cross-links) are
  embedded as functions `DiagramConfig → String → DiagramConfig × Option
  String`, the second component being the error message surfaced through
  `st.error` (`none` means the success path ran).
* The PyVis `Network` is a record of the node and edge records added by
  `add_node` / `add_edge`, in call order.
-/

namespace EpistemicApp

/-- JSON values, the image of `json.loads` on well-formed text.  Numbers are
integers, which covers every numeric field of the configuration. -/
inductive Json where
  | null : Json
  | bool : Bool → Json
  | num : Int → Json
  | str : String → Json
  | arr : List Json → Json
  | obj : List (String × Json) → Json

/-- The `Edge` dataclass: a directed edge with a possibly empty label. -/
structure Edge where
  source : String
  target : String
  label : String
deriving DecidableEq, Repr

/-- The `DiagramConfig` dataclass, field for field. -/
structure DiagramConfig where
  inner_nodes : List String
  inner_labels : List (String × String)
  inner_edges : List Edge
  outer_nodes : List String
  outer_labels : List (String × String)
  outer_edges : List Edge
  cross_links : List (String × String)
  show_cross_links : Bool
  lock_positions : Bool
  inner_radius : Int
  outer_radius : Int
  start_angle_deg : Int
  physics : Bool
deriving DecidableEq, Repr

/-- Cartesian product `[(o, i) for o in outer for i in inner]`, used for the
default cross-links and for the blank-input reset in the cross-link
handler. -/
def allPairs (outer inner : List String) : List (String × String) :=
  (outer.map (fun o => inner.map (fun i => (o, i)))).flatten

/-- The `default_config()` function. -/
def default_config : DiagramConfig :=
  { inner_nodes := ["Knowledge", "Models", "Data", "Objects", "Interactions"]
    inner_labels :=
      [("Knowledge", "Knowledge"),
       ("Models", "Models\n(representing the world)"),
       ("Data", "Data"),
       ("Objects", "Objects"),
       ("Interactions", "Interactions\nwith the world")]
    inner_edges :=
      [⟨"Models", "Knowledge", "Interpreted as"⟩,
       ⟨"Data", "Models", "Ordered as"⟩,
       ⟨"Objects", "Data", "Processed as"⟩,
       ⟨"Interactions", "Objects", "Produce"⟩,
       ⟨"Knowledge", "Interactions", "Informs further"⟩]
    outer_nodes := ["Concepts", "Standards", "Metadata", "Formats", "Protocols"]
    outer_labels :=
      [("Concepts", "Concepts"),
       ("Standards", "Schema/\nStandards"),
       ("Metadata", "Metadata"),
       ("Formats", "Formats"),
       ("Protocols", "Protocols")]
    outer_edges :=
      [⟨"Concepts", "Standards", ""⟩,
       ⟨"Standards", "Metadata", ""⟩,
       ⟨"Metadata", "Formats", ""⟩,
       ⟨"Formats", "Protocols", ""⟩,
       ⟨"Protocols", "Concepts", ""⟩]
    cross_links :=
      allPairs ["Concepts", "Standards", "Metadata", "Formats", "Protocols"]
        ["Knowledge", "Models", "Data", "Objects", "Interactions"]
    show_cross_links := true
    lock_positions := true
    inner_radius := 200
    outer_radius := 380
    start_angle_deg := 90
    physics := false }

/-- Encoding of one `Edge` by `dataclasses.asdict`. -/
def encodeEdge (e : Edge) : Json :=
  Json.obj [("source", Json.str e.source), ("target", Json.str e.target),
            ("label", Json.str e.label)]

/-- The `to_json` function: `asdict` of the config (fields in declaration
order), edge lists as lists of edge records, cross-links as 2-element
arrays, finally printed by `json.dumps`. -/
def to_json (cfg : DiagramConfig) : Json :=
  Json.obj
    [("inner_nodes", Json.arr (cfg.inner_nodes.map Json.str)),
     ("inner_labels", Json.obj (cfg.inner_labels.map (fun p => (p.1, Json.str p.2)))),
     ("inner_edges", Json.arr (cfg.inner_edges.map encodeEdge)),
     ("outer_nodes", Json.arr (cfg.outer_nodes.map Json.str)),
     ("outer_labels", Json.obj (cfg.outer_labels.map (fun p => (p.1, Json.str p.2)))),
     ("outer_edges", Json.arr (cfg.outer_edges.map encodeEdge)),
     ("cross_links", Json.arr (cfg.cross_links.map
        (fun p => Json.arr [Json.str p.1, Json.str p.2]))),
     ("show_cross_links", Json.bool cfg.show_cross_links),
     ("lock_positions", Json.bool cfg.lock_positions),
     ("inner_radius", Json.num cfg.inner_radius),
     ("outer_radius", Json.num cfg.outer_radius),
     ("start_angle_deg", Json.num cfg.start_angle_deg),
     ("physics", Json.bool cfg.physics)]

/-- Decode a JSON string value. -/
def asStr : Json → Option String
  | Json.str s => some s
  | _ => none

/-- Decode a JSON boolean value. -/
def asBool : Json → Option Bool
  | Json.bool b => some b
  | _ => none

/-- Decode a JSON integer value. -/
def asInt : Json → Option Int
  | Json.num n => some n
  | _ => none

/-- Decode every element of a list, failing on the first failure, like a
Python list comprehension over a decoder that raises. -/
def decodeList (f : Json → Option α) : List Json → Option (List α)
  | [] => some []
  | j :: rest =>
    match f j with
    | none => none
    | some a =>
      match decodeList f rest with
      | none => none
      | some l => some (a :: l)

/-- Decode `raw["inner_nodes"]` and friends: a JSON array of strings. -/
def asStrList : Json → Option (List String)
  | Json.arr l => decodeList asStr l
  | _ => none

/-- Decode the value of each key of a JSON object as a string.  (Python
performs no conversion here at all — `raw["inner_labels"]` is stored as
whatever dict `json.loads` produced; requiring string values is the typing
forced by `Dict[str, str]`, the only shape reachable from `to_json`.) -/
def decodeLabelEntries : List (String × Json) → Option (List (String × String))
  | [] => some []
  | (k, j) :: rest =>
    match asStr j with
    | none => none
    | some v =>
      match decodeLabelEntries rest with
      | none => none
      | some l => some ((k, v) :: l)

/-- Decode a label map: a JSON object whose values are strings. -/
def asLabelMap : Json → Option (List (String × String))
  | Json.obj l => decodeLabelEntries l
  | _ => none

/-- Decode one edge record, the meaning of `Edge(**e)`: `e` must be an
object whose keys all lie in `{source, target, label}`, with `source` and
`target` present; a missing `label` takes the dataclass default `""`. -/
def decodeEdge (j : Json) : Option Edge :=
  match j with
  | Json.obj fields =>
    if fields.all (fun p => p.1 = "source" ∨ p.1 = "target" ∨ p.1 = "label") then
      match fields.lookup "source", fields.lookup "target" with
      | some (Json.str s), some (Json.str t) =>
        match fields.lookup "label" with
        | none => some ⟨s, t, ""⟩
        | some (Json.str l) => some ⟨s, t, l⟩
        | some _ => none
      | _, _ => none
    else none
  | _ => none

/-- Decode a list of edge records. -/
def asEdgeList : Json → Option (List Edge)
  | Json.arr l => decodeList decodeEdge l
  | _ => none

/-- Decode one cross-link pair, the meaning of `tuple(x)` for an element of
a `List[Tuple[str, str]]` field: a 2-element array of strings. -/
def decodePair : Json → Option (String × String)
  | Json.arr [a, b] =>
    match asStr a, asStr b with
    | some x, some y => some (x, y)
    | _, _ => none
  | _ => none

/-- Decode the cross-link list. -/
def asPairList : Json → Option (List (String × String))
  | Json.arr l => decodeList decodePair l
  | _ => none

/-- The meaning of `raw.get(k, dflt)` followed by a typed use of the value:
an absent key yields the default, a present key is decoded. -/
def optField (fields : List (String × Json)) (k : String)
    (dec : Json → Option α) (dflt : α) : Option α :=
  match fields.lookup k with
  | none => some dflt
  | some v => dec v

/-- The three required inner fields of `from_json`: `raw["inner_nodes"]`,
`raw["inner_labels"]`, `raw["inner_edges"]`.  A `raw["k"]` access on a
missing key raises `KeyError`, hence `none`. -/
def reqInner (fields : List (String × Json)) :
    Option (List String × List (String × String) × List Edge) :=
  ((fields.lookup "inner_nodes").bind asStrList).bind fun nodes =>
  ((fields.lookup "inner_labels").bind asLabelMap).bind fun labels =>
  ((fields.lookup "inner_edges").bind asEdgeList).bind fun edges =>
  some (nodes, labels, edges)

/-- The three required outer fields of `from_json`. -/
def reqOuter (fields : List (String × Json)) :
    Option (List String × List (String × String) × List Edge) :=
  ((fields.lookup "outer_nodes").bind asStrList).bind fun nodes =>
  ((fields.lookup "outer_labels").bind asLabelMap).bind fun labels =>
  ((fields.lookup "outer_edges").bind asEdgeList).bind fun edges =>
  some (nodes, labels, edges)

/-- The `cross_links`, `show_cross_links` and `lock_positions` optional
fields of `from_json`, with their `raw.get` defaults. -/
def optLinks (fields : List (String × Json)) :
    Option (List (String × String) × Bool × Bool) :=
  (optField fields "cross_links" asPairList []).bind fun cls =>
  (optField fields "show_cross_links" asBool true).bind fun show1 =>
  (optField fields "lock_positions" asBool true).bind fun lock =>
  some (cls, show1, lock)

/-- The numeric and physics optional fields of `from_json`, with their
`raw.get` defaults. -/
def optNums (fields : List (String × Json)) : Option (Int × Int × Int × Bool) :=
  (optField fields "inner_radius" asInt 200).bind fun ir =>
  (optField fields "outer_radius" asInt 380).bind fun orr =>
  (optField fields "start_angle_deg" asInt 90).bind fun sa =>
  (optField fields "physics" asBool false).bind fun ph =>
  some (ir, orr, sa, ph)

/-- The `from_json` function, assembled from the four field groups above
(the grouping is only a refactoring: in `Option`, failure of any single
field access or conversion makes the whole decode fail, regardless of
evaluation order). -/
def from_json (j : Json) : Option DiagramConfig :=
  match j with
  | Json.obj fields =>
    (reqInner fields).bind fun inn =>
    (reqOuter fields).bind fun out =>
    (optLinks fields).bind fun links =>
    (optNums fields).bind fun nums =>
    some { inner_nodes := inn.1
           inner_labels := inn.2.1
           inner_edges := inn.2.2
           outer_nodes := out.1
           outer_labels := out.2.1
           outer_edges := out.2.2
           cross_links := links.1
           show_cross_links := links.2.1
           lock_positions := links.2.2
           inner_radius := nums.1
           outer_radius := nums.2.1
           start_angle_deg := nums.2.2.1
           physics := nums.2.2.2 }
  | _ => none

/-- Python dict assignment `d[k] = v` on an insertion-ordered dict: update
the existing entry in place when the key is present, append otherwise. -/
def dictInsert (d : List (String × α)) (k : String) (v : α) : List (String × α) :=
  if d.any (fun p => p.1 == k) then
    d.map (fun p => cond (p.1 == k) (k, v) p)
  else d ++ [(k, v)]

/-- Python `str.strip()` on the character list of a string. -/
def trimChars (l : List Char) : List Char :=
  ((l.dropWhile Char.isWhitespace).reverse.dropWhile Char.isWhitespace).reverse

/-- Python `s.strip()`. -/
def pyStrip (s : String) : String := String.mk (trimChars s.data)

/-- Python `s.split(sep)` for a one-character separator: cut at every
occurrence, keeping empty segments. -/
def splitCharAux (sep : Char) : List Char → List (List Char)
  | [] => [[]]
  | c :: rest =>
    match splitCharAux sep rest with
    | [] => [[]]
    | g :: gs => if c = sep then [] :: g :: gs else (c :: g) :: gs

/-- Python `s.split(sep)` for a one-character separator. -/
def pySplit (s : String) (sep : Char) : List String :=
  (splitCharAux sep s.data).map String.mk

/-- Python `a.split(sep, 1)` for a non-empty separator, fused with the
`sep in a` test: `some (before, after)` at the first occurrence of `sep`,
`none` when `sep` does not occur in `a`. -/
def splitSub (sep : List Char) : List Char → Option (List Char × List Char)
  | [] => none
  | c :: rest =>
    if sep.isPrefixOf (c :: rest) then some ([], (c :: rest).drop sep.length)
    else
      match splitSub sep rest with
      | some p => some (c :: p.1, p.2)
      | none => none

/-- The name-list parsing shared by both node-order handlers:
`[x.strip() for x in input.split(",") if x.strip()]`. -/
def parse_names (input : String) : List String :=
  ((pySplit input ',').map pyStrip).filter (fun x => x != "")

/-- The dict comprehension `{n: old.get(n, n) for n in names}` used to keep
existing labels where possible. -/
def rebuildLabels (old : List (String × String)) (names : List String) :
    List (String × String) :=
  names.foldl (fun d n => dictInsert d n ((old.lookup n).getD n)) []

/-- The "Update inner order/labels" button handler: accept the parsed names
when there are at least 3 of them, otherwise surface a validation error and
leave the configuration untouched. -/
def update_inner_order (cfg : DiagramConfig) (input : String) :
    DiagramConfig × Option String :=
  let names := parse_names input
  if names.length ≥ 3 then
    ({ cfg with inner_nodes := names,
                inner_labels := rebuildLabels cfg.inner_labels names }, none)
  else (cfg, some "Please provide at least 3 inner nodes.")

/-- The "Update outer order/labels" button handler. -/
def update_outer_order (cfg : DiagramConfig) (input : String) :
    DiagramConfig × Option String :=
  let names := parse_names input
  if names.length ≥ 3 then
    ({ cfg with outer_nodes := names,
                outer_labels := rebuildLabels cfg.outer_labels names }, none)
  else (cfg, some "Please provide at least 3 outer nodes.")

/-- Parse one already-stripped cross-link token: split at the first `→`
when present, else at the first `->`, else (`continue` in the source) the
token yields no pair. -/
def parsePairToken (a : String) : Option (String × String) :=
  match splitSub "→".data a.data with
  | some p => some (String.mk (trimChars p.1), String.mk (trimChars p.2))
  | none =>
    match splitSub "->".data a.data with
    | some p => some (String.mk (trimChars p.1), String.mk (trimChars p.2))
    | none => none

/-- The "Set cross-links" button handler.  A non-blank input is split on
commas and each stripped token contributes a pair when it parses; a blank
input resets to the full outer × inner product.  The handler's `try` body
contains no operation that can raise, so the `except` branch that would
report a parse failure is unreachable: the error component is always
`none`. -/
def set_cross_links (cfg : DiagramConfig) (input : String) :
    DiagramConfig × Option String :=
  let pairs :=
    if pyStrip input != "" then
      (pySplit input ',').filterMap (fun token => parsePairToken (pyStrip token))
    else allPairs cfg.outer_nodes cfg.inner_nodes
  ({ cfg with cross_links := pairs }, none)

/-- Python `int()` applied to a float: truncation toward zero.  Floating
point arithmetic is idealised over `ℝ` throughout the layout engine. -/
noncomputable def itrunc (z : ℝ) : ℤ := if 0 ≤ z then ⌊z⌋ else ⌈z⌉

/-- The angle, in radians, of the node at index `i` of a ring of `n` nodes:
`math.radians(start_angle_deg + (-360 if clockwise else 360) * i / n)`. -/
noncomputable def ringAngle (clockwise : Bool) (start_angle_deg : Int) (n i : ℕ) : ℝ :=
  ((start_angle_deg : ℝ) + (if clockwise then (-360 : ℝ) else 360) * i / n) *
    (Real.pi / 180)

/-- The position assigned in one iteration of the `circle_positions` loop:
`x = int(radius * cos(ang))`, `y = int(radius * sin(ang))`. -/
noncomputable def posFun (radius : Int) (clockwise : Bool) (start_angle_deg : Int)
    (n i : ℕ) : ℤ × ℤ :=
  (itrunc ((radius : ℝ) * Real.cos (ringAngle clockwise start_angle_deg n i)),
   itrunc ((radius : ℝ) * Real.sin (ringAngle clockwise start_angle_deg n i)))

/-- The `for i, name in enumerate(names)` loop of `circle_positions`,
threading the running index and the dict built so far. -/
noncomputable def circlePosAux (radius : Int) (clockwise : Bool)
    (start_angle_deg : Int) (n : ℕ) :
    List String → ℕ → List (String × (ℤ × ℤ)) → List (String × (ℤ × ℤ))
  | [], _, pos => pos
  | name :: rest, i, pos =>
    circlePosAux radius clockwise start_angle_deg n rest (i + 1)
      (dictInsert pos name (posFun radius clockwise start_angle_deg n i))

/-- The `circle_positions` helper: place each name on a circle of the given
radius, handing duplicates to the dict semantics of `pos[name] = (x, y)`. -/
noncomputable def circle_positions (names : List String) (radius : Int)
    (clockwise : Bool) (start_angle_deg : Int) : List (String × (ℤ × ℤ)) :=
  circlePosAux radius clockwise start_angle_deg names.length names 0 []

/-- The edge record produced by one `net.add_edge` call: endpoints, an
optional label, the arrowhead specification (`""` or `"to"`), and the
dash/colour styling of cross-links.  `smooth` is passed on every call. -/
structure VisEdge where
  src : String
  dst : String
  label : Option String
  arrows : String
  dashes : Bool
  color : Option String
  smooth : Bool
deriving DecidableEq, Repr

/-- The node record produced by one `net.add_node` call.  Coordinates come
from the layout engine; opacity is 0.35 for outer nodes and absent (the
renderer default) for inner ones; both tiers share the same font constant,
omitted here. -/
structure VisNode where
  id : String
  label : String
  x : Int
  y : Int
  physics : Bool
  borderWidth : Nat
  opacity : Option ℚ

/-- The PyVis `Network`: the node and edge records added, in call order,
plus the `toggle_physics` flag. -/
structure Network where
  nodes : List VisNode
  edges : List VisEdge
  physicsEnabled : Bool

/-- The `edge_label` helper: the label of the first edge of `pool` whose
endpoints match `(u, v)` in either direction, or `""` when none does. -/
def edge_label (u v : String) : List Edge → String
  | [] => ""
  | e :: rest =>
    if (e.source = u ∧ e.target = v) ∨ (e.source = v ∧ e.target = u) then e.label
    else edge_label u v rest

/-- One outer-ring `add_edge` call: label from the symmetric lookup, no
arrowhead. -/
def mkOuterEdge (u v : String) (pool : List Edge) : VisEdge :=
  { src := u, dst := v, label := some (edge_label u v pool), arrows := "",
    dashes := false, color := none, smooth := true }

/-- One inner-ring `add_edge` call: label from the symmetric lookup,
arrowhead at the target. -/
def mkInnerEdge (u v : String) (pool : List Edge) : VisEdge :=
  { src := u, dst := v, label := some (edge_label u v pool), arrows := "to",
    dashes := false, color := none, smooth := true }

/-- One cross-link `add_edge` call: dashed, gray, directed outer→inner, no
label. -/
def mkCrossEdge (p : String × String) : VisEdge :=
  { src := p.1, dst := p.2, label := none, arrows := "to", dashes := true,
    color := some "gray", smooth := true }

/-- The outer ring loop, `for i, u in enumerate(outer_nodes)`: one edge
from node `i` to node `(i + 1) % N`. -/
def outerRingEdges (cfg : DiagramConfig) : List VisEdge :=
  (List.range cfg.outer_nodes.length).map (fun i =>
    mkOuterEdge (cfg.outer_nodes.getD i "")
      (cfg.outer_nodes.getD ((i + 1) % cfg.outer_nodes.length) "")
      cfg.outer_edges)

/-- The inner ring loop: one edge from node `i` to node `(i - 1) % N`,
with Python's nonnegative modulo on the negative argument at `i = 0`. -/
def innerRingEdges (cfg : DiagramConfig) : List VisEdge :=
  (List.range cfg.inner_nodes.length).map (fun i =>
    mkInnerEdge (cfg.inner_nodes.getD i "")
      (cfg.inner_nodes.getD
        (((i : Int) - 1) % (cfg.inner_nodes.length : Int)).toNat "")
      cfg.inner_edges)

/-- The cross-link loop, guarded by `show_cross_links`: an edge per stored
pair whose endpoints both exist in the current node lists; other pairs add
nothing. -/
def crossEdges (cfg : DiagramConfig) : List VisEdge :=
  if cfg.show_cross_links then
    cfg.cross_links.foldl
      (fun acc p =>
        if p.1 ∈ cfg.outer_nodes ∧ p.2 ∈ cfg.inner_nodes then acc ++ [mkCrossEdge p]
        else acc) []
  else []

/-- The two `add_node` loops: outer tier first (border width 1, opacity
0.35), then inner tier (border width 2); label falls back to the node id,
coordinates come from `circle_positions` (every id is a key of the dict
built over its own list, so the `getD` default is never taken). -/
noncomputable def buildNodes (cfg : DiagramConfig) : List VisNode :=
  (cfg.outer_nodes.map (fun nm =>
    let xy := ((circle_positions cfg.outer_nodes cfg.outer_radius true
        cfg.start_angle_deg).lookup nm).getD (0, 0)
    { id := nm, label := (cfg.outer_labels.lookup nm).getD nm, x := xy.1, y := xy.2,
      physics := !cfg.lock_positions, borderWidth := 1,
      opacity := some (35 / 100) }))
  ++ (cfg.inner_nodes.map (fun nm =>
    let xy := ((circle_positions cfg.inner_nodes cfg.inner_radius true
        cfg.start_angle_deg).lookup nm).getD (0, 0)
    { id := nm, label := (cfg.inner_labels.lookup nm).getD nm, x := xy.1, y := xy.2,
      physics := !cfg.lock_positions, borderWidth := 2, opacity := none }))

/-- The `build_network` function: both node tiers, then outer ring edges,
inner ring edges and cross-link edges, in `add_edge` call order. -/
noncomputable def build_network (cfg : DiagramConfig) : Network :=
  { nodes := buildNodes cfg
    edges := outerRingEdges cfg ++ innerRingEdges cfg ++ crossEdges cfg
    physicsEnabled := cfg.physics }

/-- The builder as a state transformer on the configuration: the body of
`build_network` only reads `cfg` — no statement assigns to a field of it or
mutates one in place — so the translated procedure hands the configuration
back exactly as received. -/
noncomputable def build_network_proc (cfg : DiagramConfig) :
    Network × DiagramConfig :=
  (build_network cfg, cfg)

/-- Python iteration over a `json.loads` value, as used by `tuple(x)` and
by the edge-list comprehension: an array yields its elements, a dict
yields its keys, a string yields its characters as 1-character strings;
numbers, booleans and `null` are not iterable (`TypeError`). -/
def pyIter : Json → Option (List Json)
  | Json.arr l => some l
  | Json.obj fields => some (fields.map (fun p => Json.str p.1))
  | Json.str s => some (s.data.map (fun c => Json.str (String.mk [c])))
  | _ => none

/-- An `Edge` as `from_json` actually builds it from untrusted input:
`Edge(**e)` constrains the keys of `e` but stores the values unchecked,
whatever their type. -/
structure DynEdge where
  source : Json
  target : Json
  label : Json

/-- The `DiagramConfig` as `from_json` actually populates it from
untrusted input: the dataclass performs no validation, so every field
other than the two transformed edge lists and the cross-link list holds
whatever value the parsed dict supplied, unchecked. -/
structure DynConfig where
  inner_nodes : Json
  inner_labels : Json
  inner_edges : List DynEdge
  outer_nodes : Json
  outer_labels : Json
  outer_edges : List DynEdge
  cross_links : List (List Json)
  show_cross_links : Json
  lock_positions : Json
  inner_radius : Json
  outer_radius : Json
  start_angle_deg : Json
  physics : Json

/-- `Edge(**e)` on a dynamic value: `e` must be a mapping (among
`json.loads` results only a dict is one) whose keys lie in
`{source, target, label}`, with `source` and `target` present and `label`
defaulting to `""`; the values themselves are stored unchecked. -/
def dynDecodeEdge (j : Json) : Option DynEdge :=
  match j with
  | Json.obj fields =>
    if fields.all (fun p => p.1 = "source" ∨ p.1 = "target" ∨ p.1 = "label") then
      match fields.lookup "source", fields.lookup "target" with
      | some s, some t => some ⟨s, t, (fields.lookup "label").getD (Json.str "")⟩
      | _, _ => none
    else none
  | _ => none

/-- The comprehension `[Edge(**e) for e in v]`: iterate `v`, then build
each edge; fails when `v` is not iterable or an element is not a valid
`Edge` keyword mapping. -/
def dynEdgeList (j : Json) : Option (List DynEdge) :=
  (pyIter j).bind (decodeList dynDecodeEdge)

/-- The three required inner field accesses of `from_json`, dynamically
typed: the node-list and label values pass through unchecked. -/
def dynReqInner (fields : List (String × Json)) :
    Option (Json × Json × List DynEdge) :=
  (fields.lookup "inner_nodes").bind fun n =>
  (fields.lookup "inner_labels").bind fun l =>
  ((fields.lookup "inner_edges").bind dynEdgeList).bind fun e =>
  some (n, l, e)

/-- The three required outer field accesses of `from_json`, dynamically
typed. -/
def dynReqOuter (fields : List (String × Json)) :
    Option (Json × Json × List DynEdge) :=
  (fields.lookup "outer_nodes").bind fun n =>
  (fields.lookup "outer_labels").bind fun l =>
  ((fields.lookup "outer_edges").bind dynEdgeList).bind fun e =>
  some (n, l, e)

/-- `[tuple(x) for x in raw.get("cross_links", [])]`: the field's value
(defaulting to the empty list) must be iterable, and each of its elements
must be iterable — of any length, holding values of any type. -/
def dynCross (fields : List (String × Json)) : Option (List (List Json)) :=
  (pyIter ((fields.lookup "cross_links").getD (Json.arr []))).bind
    (decodeList pyIter)

/-- The `from_json` function embedded a second time, dynamically typed, as
the exact image of the Python code: the six required fields are accessed
(failing only when absent), the edge lists and the cross-link list are
transformed (failing only on a non-iterable value, a non-mapping edge
record, an unknown or missing edge key, or a non-iterable cross-link
element), and every other value — node lists, label dicts, and each
`raw.get` optional field — is stored entirely unchecked.  This twin
settles exactly when the source fails; the typed `from_json` above
restricts the same code to the statically-typed configurations the rest of
the app manipulates. -/
def from_json_dyn (j : Json) : Option DynConfig :=
  match j with
  | Json.obj fields =>
    (dynReqInner fields).bind fun inn =>
    (dynReqOuter fields).bind fun out =>
    (dynCross fields).bind fun cls =>
    some { inner_nodes := inn.1
           inner_labels := inn.2.1
           inner_edges := inn.2.2
           outer_nodes := out.1
           outer_labels := out.2.1
           outer_edges := out.2.2
           cross_links := cls
           show_cross_links := (fields.lookup "show_cross_links").getD (Json.bool true)
           lock_positions := (fields.lookup "lock_positions").getD (Json.bool true)
           inner_radius := (fields.lookup "inner_radius").getD (Json.num 200)
           outer_radius := (fields.lookup "outer_radius").getD (Json.num 380)
           start_angle_deg := (fields.lookup "start_angle_deg").getD (Json.num 90)
           physics := (fields.lookup "physics").getD (Json.bool false) }
  | _ => none

/-- A well-formed input the source accepts although its values are wildly
ill-typed: an integer node list, boolean and number label fields, an empty
string and an empty dict as edge lists (both iterate to nothing), a number
for `show_cross_links` — all stored unchecked. -/
def dynGoodFields : List (String × Json) :=
  [("inner_nodes", Json.num 5),
   ("inner_labels", Json.bool false),
   ("inner_edges", Json.str ""),
   ("outer_nodes", Json.null),
   ("outer_labels", Json.num 17),
   ("outer_edges", Json.obj []),
   ("show_cross_links", Json.num 17)]

/-- A well-formed input whose six required fields are all present but whose
`inner_edges` entry `{}` is not a valid edge record (`Edge(**{})` raises a
`TypeError` in the source), and which omits every optional field. -/
def c5BadFields : List (String × Json) :=
  [("inner_nodes", Json.arr []),
   ("inner_labels", Json.obj []),
   ("inner_edges", Json.arr [Json.obj []]),
   ("outer_nodes", Json.arr []),
   ("outer_labels", Json.obj []),
   ("outer_edges", Json.arr [])]

theorem decodeList_asStr_map (l : List String) :
    decodeList asStr (l.map Json.str) = some l := by
  induction l with
  | nil => rfl
  | cons a rest ih => simp [decodeList, asStr, ih]

theorem decodeEdge_encodeEdge (e : Edge) : decodeEdge (encodeEdge e) = some e := by
  rfl

theorem decodeList_encodeEdge_map (l : List Edge) :
    decodeList decodeEdge (l.map encodeEdge) = some l := by
  induction l with
  | nil => rfl
  | cons a rest ih => simp [decodeList, decodeEdge_encodeEdge, ih]

theorem decodeList_pair_map (l : List (String × String)) :
    decodeList decodePair (l.map (fun p => Json.arr [Json.str p.1, Json.str p.2])) =
      some l := by
  induction l with
  | nil => rfl
  | cons a rest ih => simp [decodeList, decodePair, asStr, ih]

theorem asLabelMap_map (l : List (String × String)) :
    asLabelMap (Json.obj (l.map (fun p => (p.1, Json.str p.2)))) = some l := by
  simp only [asLabelMap]
  induction l with
  | nil => rfl
  | cons a rest ih => simp [decodeLabelEntries, asStr, ih]

/-- C1: decoding the encoding of any `DiagramConfig` gives back a config
field-for-field equal to the original: `from_json (to_json c) = some c`. -/
theorem c1_roundtrip (cfg : DiagramConfig) : from_json (to_json cfg) = some cfg := by
  simp [to_json, from_json, reqInner, reqOuter, optLinks, optNums,
    List.lookup, decodeList_asStr_map, asStrList, asLabelMap_map, asEdgeList,
    decodeList_encodeEdge_map, asPairList, decodeList_pair_map, optField,
    asBool, asInt]

theorem dynReqInner_eq_some {fields : List (String × Json)}
    {t : Json × Json × List DynEdge} (h : dynReqInner fields = some t) :
    fields.lookup "inner_nodes" = some t.1 ∧
      fields.lookup "inner_labels" = some t.2.1 ∧
      (fields.lookup "inner_edges").bind dynEdgeList = some t.2.2 := by
  unfold dynReqInner at h
  rcases Option.bind_eq_some.mp h with ⟨n, hn, h⟩
  rcases Option.bind_eq_some.mp h with ⟨l, hl, h⟩
  rcases Option.bind_eq_some.mp h with ⟨e, he, h⟩
  rw [Option.some.injEq] at h
  subst h
  exact ⟨hn, hl, he⟩

theorem dynReqOuter_eq_some {fields : List (String × Json)}
    {t : Json × Json × List DynEdge} (h : dynReqOuter fields = some t) :
    fields.lookup "outer_nodes" = some t.1 ∧
      fields.lookup "outer_labels" = some t.2.1 ∧
      (fields.lookup "outer_edges").bind dynEdgeList = some t.2.2 := by
  unfold dynReqOuter at h
  rcases Option.bind_eq_some.mp h with ⟨n, hn, h⟩
  rcases Option.bind_eq_some.mp h with ⟨l, hl, h⟩
  rcases Option.bind_eq_some.mp h with ⟨e, he, h⟩
  rw [Option.some.injEq] at h
  subst h
  exact ⟨hn, hl, he⟩

/-- C5 (amended): over the dynamically-typed embedding `from_json_dyn`,
which mirrors the source's checks exactly: decoding an object succeeds if
and only if each of the six required fields is present, the two edge-list
fields transform (an iterable of key-constrained mappings) and the
cross-link field transforms (an iterable of iterables, absent meaning
empty); any non-object input fails; and in every successful decode the
node-list, label and optional values are stored unchecked — so ill-typed
values are accepted — while each absent optional field takes its
documented default. -/
theorem c5_dynamic_decode :
    (∀ fields : List (String × Json),
        (from_json_dyn (Json.obj fields)).isSome ↔
          ((fields.lookup "inner_nodes").isSome ∧
           (fields.lookup "inner_labels").isSome ∧
           ((fields.lookup "inner_edges").bind dynEdgeList).isSome ∧
           (fields.lookup "outer_nodes").isSome ∧
           (fields.lookup "outer_labels").isSome ∧
           ((fields.lookup "outer_edges").bind dynEdgeList).isSome ∧
           (dynCross fields).isSome)) ∧
    (∀ j : Json, (∀ fields, j ≠ Json.obj fields) → from_json_dyn j = none) ∧
    (∀ (fields : List (String × Json)) (cfg : DynConfig),
        from_json_dyn (Json.obj fields) = some cfg →
        (∀ v, fields.lookup "inner_nodes" = some v → cfg.inner_nodes = v) ∧
        (∀ v, fields.lookup "inner_labels" = some v → cfg.inner_labels = v) ∧
        (∀ v, fields.lookup "outer_nodes" = some v → cfg.outer_nodes = v) ∧
        (∀ v, fields.lookup "outer_labels" = some v → cfg.outer_labels = v) ∧
        (∀ v, fields.lookup "show_cross_links" = some v →
          cfg.show_cross_links = v) ∧
        (fields.lookup "cross_links" = none → cfg.cross_links = []) ∧
        (fields.lookup "show_cross_links" = none →
          cfg.show_cross_links = Json.bool true) ∧
        (fields.lookup "lock_positions" = none →
          cfg.lock_positions = Json.bool true) ∧
        (fields.lookup "inner_radius" = none → cfg.inner_radius = Json.num 200) ∧
        (fields.lookup "outer_radius" = none → cfg.outer_radius = Json.num 380) ∧
        (fields.lookup "start_angle_deg" = none →
          cfg.start_angle_deg = Json.num 90) ∧
        (fields.lookup "physics" = none → cfg.physics = Json.bool false)) := by
  refine ⟨?_, ?_, ?_⟩
  · intro fields
    constructor
    · intro h
      rw [Option.isSome_iff_exists] at h
      obtain ⟨cfg, h⟩ := h
      unfold from_json_dyn at h
      rcases Option.bind_eq_some.mp h with ⟨inn, hinn, h⟩
      rcases Option.bind_eq_some.mp h with ⟨out, hout, h⟩
      rcases Option.bind_eq_some.mp h with ⟨cls, hcls, _⟩
      obtain ⟨h1, h2, h3⟩ := dynReqInner_eq_some hinn
      obtain ⟨h4, h5, h6⟩ := dynReqOuter_eq_some hout
      exact ⟨by simp [h1], by simp [h2], by simp [h3], by simp [h4], by simp [h5],
        by simp [h6], by simp [hcls]⟩
    · rintro ⟨h1, h2, h3, h4, h5, h6, h7⟩
      rw [Option.isSome_iff_exists] at h1 h2 h3 h4 h5 h6 h7
      obtain ⟨n1, e1⟩ := h1
      obtain ⟨n2, e2⟩ := h2
      obtain ⟨n3, e3⟩ := h3
      obtain ⟨n4, e4⟩ := h4
      obtain ⟨n5, e5⟩ := h5
      obtain ⟨n6, e6⟩ := h6
      obtain ⟨n7, e7⟩ := h7
      have hinn : dynReqInner fields = some (n1, n2, n3) := by
        unfold dynReqInner
        rw [e1, Option.some_bind, e2, Option.some_bind, e3, Option.some_bind]
      have hout : dynReqOuter fields = some (n4, n5, n6) := by
        unfold dynReqOuter
        rw [e4, Option.some_bind, e5, Option.some_bind, e6, Option.some_bind]
      simp only [from_json_dyn]
      rw [hinn, Option.some_bind, hout, Option.some_bind, e7, Option.some_bind]
      rfl
  · intro j h
    cases j with
    | obj fields => exact absurd rfl (h fields)
    | null => rfl
    | bool b => rfl
    | num n => rfl
    | str s => rfl
    | arr l => rfl
  · intro fields cfg h
    unfold from_json_dyn at h
    rcases Option.bind_eq_some.mp h with ⟨inn, hinn, h⟩
    rcases Option.bind_eq_some.mp h with ⟨out, hout, h⟩
    rcases Option.bind_eq_some.mp h with ⟨cls, hcls, h⟩
    rw [Option.some.injEq] at h
    subst h
    obtain ⟨hi1, hi2, _⟩ := dynReqInner_eq_some hinn
    obtain ⟨ho1, ho2, _⟩ := dynReqOuter_eq_some hout
    refine ⟨?_, ?_, ?_, ?_, ?_, ?_, ?_, ?_, ?_, ?_, ?_, ?_⟩
    · intro v hv
      exact (Option.some.inj (hv.symm.trans hi1)).symm
    · intro v hv
      exact (Option.some.inj (hv.symm.trans hi2)).symm
    · intro v hv
      exact (Option.some.inj (hv.symm.trans ho1)).symm
    · intro v hv
      exact (Option.some.inj (hv.symm.trans ho2)).symm
    · intro v hv
      show (fields.lookup "show_cross_links").getD (Json.bool true) = v
      rw [hv]
      rfl
    · intro hlk
      have hc := hcls
      unfold dynCross at hc
      rw [hlk] at hc
      simp only [Option.getD_none, pyIter, decodeList, Option.some_bind,
        Option.some.injEq] at hc
      exact hc.symm
    · intro hlk
      show (fields.lookup "show_cross_links").getD (Json.bool true) = Json.bool true
      rw [hlk]
      rfl
    · intro hlk
      show (fields.lookup "lock_positions").getD (Json.bool true) = Json.bool true
      rw [hlk]
      rfl
    · intro hlk
      show (fields.lookup "inner_radius").getD (Json.num 200) = Json.num 200
      rw [hlk]
      rfl
    · intro hlk
      show (fields.lookup "outer_radius").getD (Json.num 380) = Json.num 380
      rw [hlk]
      rfl
    · intro hlk
      show (fields.lookup "start_angle_deg").getD (Json.num 90) = Json.num 90
      rw [hlk]
      rfl
    · intro hlk
      show (fields.lookup "physics").getD (Json.bool false) = Json.bool false
      rw [hlk]
      rfl

/-- Witness for C5's amended theorem: a concrete input whose node lists,
labels and `show_cross_links` are ill-typed — which the source accepts,
storing the values unchecked — decodes successfully. -/
theorem c5_dyn_witness :
    (from_json_dyn (Json.obj dynGoodFields)).isSome = true :=
  (c5_dynamic_decode.1 dynGoodFields).mpr (by decide)

/-- Counterexample to C5 as stated: well-formed structured data with all
six required fields present and every optional field absent on which the
source still fails, because the edge record `{}` inside `inner_edges`
makes `Edge(**{})` raise — so both the "fails exactly when malformed or a
required field is absent" clause and the "succeeds on every well-formed
input missing an optional field" clause are false. -/
theorem c5_counterexample :
    (c5BadFields.lookup "inner_nodes").isSome = true ∧
      (c5BadFields.lookup "inner_labels").isSome = true ∧
      (c5BadFields.lookup "inner_edges").isSome = true ∧
      (c5BadFields.lookup "outer_nodes").isSome = true ∧
      (c5BadFields.lookup "outer_labels").isSome = true ∧
      (c5BadFields.lookup "outer_edges").isSome = true ∧
      c5BadFields.lookup "cross_links" = none ∧
      from_json_dyn (Json.obj c5BadFields) = none :=
  ⟨rfl, rfl, rfl, rfl, rfl, rfl, rfl, rfl⟩

/-- C9: a node-order update (inner or outer) whose input parses to fewer
than 3 non-empty names surfaces the validation error and leaves the
configuration — node list and label mapping included — unchanged. -/
theorem c9_min_three_names (cfg : DiagramConfig) (input : String)
    (h : (parse_names input).length < 3) :
    update_inner_order cfg input =
      (cfg, some "Please provide at least 3 inner nodes.") ∧
    update_outer_order cfg input =
      (cfg, some "Please provide at least 3 outer nodes.") := by
  constructor <;>
    simp [update_inner_order, update_outer_order, Nat.not_le.mpr h]

/-- Witness for C9: the concrete input `" a , b "` parses to 2 names and
both handlers reject it without touching the default configuration. -/
theorem c9_witness :
    (parse_names " a , b ").length < 3 ∧
      update_inner_order default_config " a , b " =
        (default_config, some "Please provide at least 3 inner nodes.") :=
  ⟨by decide, (c9_min_three_names default_config " a , b " (by decide)).1⟩

/-- C6 (amended): the cross-link handler never reports an error; a
malformed pair token — one in which neither `→` nor `->` occurs — is
skipped silently, and `cross_links` is replaced by the pairs parsed from
the well-formed tokens (or by the full outer × inner product on blank
input); every other configuration field is left unchanged. -/
theorem c6_silent_skip (cfg : DiagramConfig) (input : String) :
    (set_cross_links cfg input).2 = none ∧
    (set_cross_links cfg input).1.cross_links =
      (if pyStrip input != "" then
        (pySplit input ',').filterMap (fun token => parsePairToken (pyStrip token))
       else allPairs cfg.outer_nodes cfg.inner_nodes) ∧
    (∀ token : String,
        splitSub "→".data token.data = none →
        splitSub "->".data token.data = none →
        parsePairToken token = none) ∧
    { (set_cross_links cfg input).1 with cross_links := cfg.cross_links } = cfg := by
  refine ⟨rfl, ?_, ?_, ?_⟩
  · simp [set_cross_links]
  · intro token h1 h2
    simp [parsePairToken, h1, h2]
  · simp [set_cross_links]

/-- Witness for C6's amended theorem: a concrete well-formed token is
parsed, and a concrete arrow-free token is skipped. -/
theorem c6_amended_witness :
    (set_cross_links default_config "x->y").2 = none ∧
      parsePairToken "bog" = none :=
  ⟨(c6_silent_skip default_config "x->y").1,
   (c6_silent_skip default_config "x->y").2.2.1 "bog" rfl rfl⟩

/-- Counterexample to C6 as stated: on the input `"bogus"`, whose single
token matches neither `Outer→Inner` nor `Outer->Inner`, the handler reports
no error at all and still changes the model, resetting `cross_links` from
the 25 default pairs to the empty list. -/
theorem c6_counterexample :
    (set_cross_links default_config "bogus").2 = none ∧
      (set_cross_links default_config "bogus").1.cross_links = [] ∧
      default_config.cross_links ≠ [] :=
  ⟨rfl, rfl, by decide⟩

theorem lookup_eq_none_of_not_mem {α : Type} {d : List (String × α)} {k : String}
    (h : k ∉ d.map Prod.fst) : d.lookup k = none := by
  induction d with
  | nil => rfl
  | cons p rest ih =>
    simp only [List.map_cons, List.mem_cons, not_or] at h
    simp [List.lookup, beq_eq_false_iff_ne.mpr h.1, ih h.2]

theorem lookup_append_of_none {α : Type} {d d' : List (String × α)} {k : String}
    (h : d.lookup k = none) : (d ++ d').lookup k = d'.lookup k := by
  induction d with
  | nil => rfl
  | cons p rest ih =>
    rw [List.cons_append]
    cases hk : (k == p.1) with
    | true => simp [List.lookup, hk] at h
    | false =>
      simp only [List.lookup, hk] at h ⊢
      exact ih h

theorem dictInsert_fresh {α : Type} {d : List (String × α)} {k : String} (v : α)
    (h : k ∉ d.map Prod.fst) : dictInsert d k v = d ++ [(k, v)] := by
  unfold dictInsert
  rw [if_neg]
  intro hc
  simp only [List.any_eq_true, beq_iff_eq] at hc
  obtain ⟨p, hp, he⟩ := hc
  exact h (List.mem_map.mpr ⟨p, hp, he⟩)

theorem lookup_map_subst {α : Type} {d : List (String × α)} {k : String} {v : α}
    (hc : ∃ p ∈ d, p.1 = k) :
    (d.map (fun p => cond (p.1 == k) (k, v) p)).lookup k = some v := by
  induction d with
  | nil => simp at hc
  | cons q rest ih =>
    rw [List.map_cons]
    cases hq : (q.1 == k) with
    | true => simp [List.lookup]
    | false =>
      obtain ⟨p, hp, he⟩ := hc
      rcases List.mem_cons.mp hp with rfl | hp'
      · exact absurd (beq_iff_eq.mpr he) (by simp [hq])
      · have hk' : (k == q.1) = false := by
          rw [beq_eq_false_iff_ne] at hq ⊢
          exact fun h => hq h.symm
        simp only [cond_false, List.lookup, hk']
        exact ih ⟨p, hp', he⟩

theorem lookup_dictInsert_self {α : Type} (d : List (String × α)) (k : String)
    (v : α) : (dictInsert d k v).lookup k = some v := by
  unfold dictInsert
  split_ifs with hc
  · simp only [List.any_eq_true, beq_iff_eq] at hc
    exact lookup_map_subst hc
  · have hnone : d.lookup k = none := by
      apply lookup_eq_none_of_not_mem
      intro hmem
      apply hc
      obtain ⟨p, hp, he⟩ := List.mem_map.mp hmem
      exact List.any_eq_true.mpr ⟨p, hp, beq_iff_eq.mpr he⟩
    rw [lookup_append_of_none hnone]
    simp [List.lookup]

theorem lookup_map_subst_ne {α : Type} (d : List (String × α)) {k k' : String}
    (v : α) (h : k' ≠ k) :
    (d.map (fun p => cond (p.1 == k) (k, v) p)).lookup k' = d.lookup k' := by
  induction d with
  | nil => rfl
  | cons q rest ih =>
    rw [List.map_cons]
    cases hq : (q.1 == k) with
    | true =>
      have h1 : (k' == k) = false := beq_eq_false_iff_ne.mpr h
      have h2 : (k' == q.1) = false := by
        rw [beq_eq_false_iff_ne]
        rw [beq_iff_eq] at hq
        exact hq ▸ h
      simp only [cond_true, List.lookup, h1, h2]
      exact ih
    | false =>
      simp only [cond_false, List.lookup]
      cases hkq : (k' == q.1) with
      | true => rfl
      | false => exact ih

theorem lookup_append_singleton_ne {α : Type} (d : List (String × α))
    {k k' : String} (v : α) (h : k' ≠ k) :
    (d ++ [(k, v)]).lookup k' = d.lookup k' := by
  induction d with
  | nil => simp [List.lookup, beq_eq_false_iff_ne.mpr h]
  | cons q rest ih =>
    rw [List.cons_append]
    simp only [List.lookup]
    cases hkq : (k' == q.1) with
    | true => rfl
    | false => exact ih

theorem lookup_dictInsert_ne {α : Type} {d : List (String × α)} {k k' : String}
    (v : α) (h : k' ≠ k) : (dictInsert d k v).lookup k' = d.lookup k' := by
  unfold dictInsert
  split_ifs with hc
  · exact lookup_map_subst_ne d v h
  · exact lookup_append_singleton_ne d v h

theorem map_fst_dictInsert {α : Type} (d : List (String × α)) (k : String) (v : α) :
    (dictInsert d k v).map Prod.fst =
      if k ∈ d.map Prod.fst then d.map Prod.fst else d.map Prod.fst ++ [k] := by
  have hmem : (d.any (fun p => p.1 == k) = true) ↔ k ∈ d.map Prod.fst := by
    simp [List.any_eq_true, beq_iff_eq, List.mem_map]
  unfold dictInsert
  split_ifs with hc h2 h2
  · rw [List.map_map]
    apply List.map_congr_left
    intro p _
    cases hp : (p.1 == k) with
    | true =>
      rw [beq_iff_eq] at hp
      simp [Function.comp, hp]
    | false => simp [Function.comp, hp]
  · exact absurd (hmem.mp hc) h2
  · exact absurd (hmem.mpr h2) hc
  · simp

theorem mem_keys_dictInsert {α : Type} {d : List (String × α)} {k a : String}
    {v : α} : a ∈ (dictInsert d k v).map Prod.fst ↔ a ∈ d.map Prod.fst ∨ a = k := by
  rw [map_fst_dictInsert]
  split_ifs with h
  · constructor
    · exact Or.inl
    · rintro (ha | rfl)
      · exact ha
      · exact h
  · simp

theorem keys_nodup_dictInsert {α : Type} {d : List (String × α)} {k : String}
    {v : α} (h : (d.map Prod.fst).Nodup) :
    ((dictInsert d k v).map Prod.fst).Nodup := by
  rw [map_fst_dictInsert]
  split_ifs with hk
  · exact h
  · simp only [List.nodup_append, List.nodup_cons, List.not_mem_nil,
      not_false_iff, List.nodup_nil, and_true, true_and]
    constructor
    · exact h
    · intro a ha hak
      rcases List.mem_singleton.mp hak with rfl
      exact hk ha

theorem length_dictInsert {α : Type} (d : List (String × α)) (k : String) (v : α) :
    (dictInsert d k v).length =
      if k ∈ d.map Prod.fst then d.length else d.length + 1 := by
  have h := congrArg List.length (map_fst_dictInsert d k v)
  simp only [List.length_map] at h
  rw [h]
  split_ifs <;> simp

theorem circlePosAux_append (r : Int) (cw : Bool) (s : Int) (n : ℕ)
    (l₁ l₂ : List String) :
    ∀ (i : ℕ) (pos : List (String × (ℤ × ℤ))),
      circlePosAux r cw s n (l₁ ++ l₂) i pos =
        circlePosAux r cw s n l₂ (i + l₁.length) (circlePosAux r cw s n l₁ i pos) := by
  induction l₁ with
  | nil => intro i pos; simp [circlePosAux]
  | cons a rest ih =>
    intro i pos
    rw [List.cons_append]
    simp only [circlePosAux]
    rw [ih]
    have harith : i + 1 + rest.length = i + (a :: rest).length := by
      simp only [List.length_cons]
      omega
    rw [harith]

theorem circlePosAux_lookup_not_mem (r : Int) (cw : Bool) (s : Int) (n : ℕ)
    {name : String} (l : List String) (h : name ∉ l) :
    ∀ (i : ℕ) (pos : List (String × (ℤ × ℤ))),
      (circlePosAux r cw s n l i pos).lookup name = pos.lookup name := by
  induction l with
  | nil => intro i pos; rfl
  | cons a rest ih =>
    intro i pos
    simp only [List.mem_cons, not_or] at h
    simp only [circlePosAux]
    rw [ih h.2, lookup_dictInsert_ne _ h.1]

theorem circlePosAux_mem_keys (r : Int) (cw : Bool) (s : Int) (n : ℕ)
    {a : String} (l : List String) :
    ∀ (i : ℕ) (pos : List (String × (ℤ × ℤ))),
      a ∈ (circlePosAux r cw s n l i pos).map Prod.fst ↔
        a ∈ pos.map Prod.fst ∨ a ∈ l := by
  induction l with
  | nil => intro i pos; simp [circlePosAux]
  | cons b rest ih =>
    intro i pos
    simp only [circlePosAux]
    rw [ih, mem_keys_dictInsert]
    simp only [List.mem_cons]
    tauto

theorem circlePosAux_keys_nodup (r : Int) (cw : Bool) (s : Int) (n : ℕ)
    (l : List String) :
    ∀ (i : ℕ) (pos : List (String × (ℤ × ℤ))), (pos.map Prod.fst).Nodup →
      ((circlePosAux r cw s n l i pos).map Prod.fst).Nodup := by
  induction l with
  | nil => intro i pos h; exact h
  | cons a rest ih =>
    intro i pos h
    exact ih _ _ (keys_nodup_dictInsert h)

theorem circlePosAux_fresh_keys (r : Int) (cw : Bool) (s : Int) (n : ℕ) :
    ∀ (l : List String) (i : ℕ) (pos : List (String × (ℤ × ℤ))),
      l.Nodup → (∀ k ∈ l, k ∉ pos.map Prod.fst) →
      (circlePosAux r cw s n l i pos).map Prod.fst = pos.map Prod.fst ++ l := by
  intro l
  induction l with
  | nil => intro i pos _ _; simp [circlePosAux]
  | cons a rest ih =>
    intro i pos hl hf
    rw [List.nodup_cons] at hl
    simp only [circlePosAux]
    rw [dictInsert_fresh _ (hf a (List.mem_cons_self a rest))]
    rw [ih (i + 1) _ hl.2 ?fresh]
    case fresh =>
      intro k hk
      rw [List.map_append, List.mem_append]
      rintro (hkpos | hka)
      · exact hf k (List.mem_cons_of_mem a hk) hkpos
      · simp only [List.map_cons, List.map_nil, List.mem_singleton] at hka
        exact hl.1 (hka ▸ hk)
    simp

theorem circlePosAux_lookup_fresh (r : Int) (cw : Bool) (s : Int) (n : ℕ) :
    ∀ (l : List String) (j i : ℕ) (pos : List (String × (ℤ × ℤ))),
      l.Nodup → (∀ k ∈ l, k ∉ pos.map Prod.fst) → j < l.length →
      (circlePosAux r cw s n l i pos).lookup (l.getD j "") =
        some (posFun r cw s n (i + j)) := by
  intro l
  induction l with
  | nil =>
    intro j i pos _ _ hj
    simp at hj
  | cons a rest ih =>
    intro j i pos hl hf hj
    rw [List.nodup_cons] at hl
    simp only [circlePosAux]
    cases j with
    | zero =>
      rw [show (a :: rest).getD 0 "" = a from rfl]
      rw [circlePosAux_lookup_not_mem r cw s n rest hl.1]
      rw [lookup_dictInsert_self, Nat.add_zero]
    | succ j' =>
      rw [show (a :: rest).getD (j' + 1) "" = rest.getD j' "" from rfl]
      have hfresh : ∀ k ∈ rest,
          k ∉ (dictInsert pos a (posFun r cw s n i)).map Prod.fst := by
        intro k hk hkmem
        rcases mem_keys_dictInsert.mp hkmem with hkpos | rfl
        · exact hf k (List.mem_cons_of_mem a hk) hkpos
        · exact hl.1 hk
      have hstep := ih j' (i + 1) _ hl.2 hfresh (by simpa using hj)
      have harith : i + 1 + j' = i + (j' + 1) := by omega
      rw [harith] at hstep
      exact hstep

theorem toFinset_card_lt_of_not_nodup (l : List String) (h : ¬l.Nodup) :
    l.toFinset.card < l.length := by
  induction l with
  | nil => exact absurd List.nodup_nil h
  | cons a rest ih =>
    by_cases ha : a ∈ rest
    · have hcard : (a :: rest).toFinset.card = rest.toFinset.card := by
        rw [List.toFinset_cons, Finset.insert_eq_self.mpr (List.mem_toFinset.mpr ha)]
      rw [hcard]
      have hle := List.toFinset_card_le rest
      simp only [List.length_cons]
      omega
    · have hrest : ¬rest.Nodup := fun hn => h (List.nodup_cons.mpr ⟨ha, hn⟩)
      have h1 := ih hrest
      have h2 : (a :: rest).toFinset.card ≤ rest.toFinset.card + 1 := by
        rw [List.toFinset_cons]
        exact Finset.card_insert_le _ _
      simp only [List.length_cons]
      omega

/-- C10: when the `names` list contains duplicates, the mapping built by
`circle_positions` has one entry per distinct name — its keys repeat no
name and cover exactly the names — so it has strictly fewer entries than
`names`, and a name occurring more than once is mapped to the position
computed at its last occurrence (its last index in the list). -/
theorem c10_duplicate_names (names : List String) (radius : Int) (clockwise : Bool)
    (start_angle_deg : Int) (h : ¬names.Nodup) :
    ((circle_positions names radius clockwise start_angle_deg).map Prod.fst).Nodup ∧
    (∀ x, x ∈ (circle_positions names radius clockwise start_angle_deg).map Prod.fst ↔
        x ∈ names) ∧
    (circle_positions names radius clockwise start_angle_deg).length < names.length ∧
    (∀ pre name suf, names = pre ++ name :: suf → name ∉ suf →
        (circle_positions names radius clockwise start_angle_deg).lookup name =
          some (posFun radius clockwise start_angle_deg names.length pre.length)) := by
  have hnod : ((circle_positions names radius clockwise start_angle_deg).map
      Prod.fst).Nodup :=
    circlePosAux_keys_nodup radius clockwise start_angle_deg names.length names 0 []
      (by simp)
  have hmem : ∀ x,
      x ∈ (circle_positions names radius clockwise start_angle_deg).map Prod.fst ↔
        x ∈ names := by
    intro x
    rw [circle_positions, circlePosAux_mem_keys]
    simp
  refine ⟨hnod, hmem, ?_, ?_⟩
  · have hfin : ((circle_positions names radius clockwise start_angle_deg).map
        Prod.fst).toFinset = names.toFinset := by
      ext x
      simp only [List.mem_toFinset]
      exact hmem x
    calc (circle_positions names radius clockwise start_angle_deg).length
        = ((circle_positions names radius clockwise start_angle_deg).map
            Prod.fst).length := (List.length_map _ _).symm
      _ = ((circle_positions names radius clockwise start_angle_deg).map
            Prod.fst).toFinset.card := (List.toFinset_card_of_nodup hnod).symm
      _ = names.toFinset.card := by rw [hfin]
      _ < names.length := toFinset_card_lt_of_not_nodup names h
  · intro pre name suf heq hsuf
    subst heq
    rw [circle_positions, circlePosAux_append]
    simp only [circlePosAux]
    rw [circlePosAux_lookup_not_mem _ _ _ _ suf hsuf]
    rw [lookup_dictInsert_self]
    norm_num

/-- Witness for C10: on the duplicate-bearing list `["a", "b", "a"]` the
mapping has strictly fewer entries than the list. -/
theorem c10_witness :
    ¬(["a", "b", "a"] : List String).Nodup ∧
      (circle_positions ["a", "b", "a"] 7 true 0).length < 3 :=
  ⟨by decide, (c10_duplicate_names ["a", "b", "a"] 7 true 0 (by decide)).2.2.1⟩

theorem abs_itrunc_le (z : ℝ) : |((itrunc z : ℤ) : ℝ)| ≤ |z| := by
  unfold itrunc
  split_ifs with hz
  · have h0 : (0 : ℝ) ≤ ((⌊z⌋ : ℤ) : ℝ) := by
      exact_mod_cast Int.floor_nonneg.mpr hz
    rw [abs_of_nonneg hz, abs_of_nonneg h0]
    exact Int.floor_le z
  · push_neg at hz
    have hc : ⌈z⌉ ≤ 0 := Int.ceil_le.mpr (by exact_mod_cast hz.le)
    have h0 : ((⌈z⌉ : ℤ) : ℝ) ≤ 0 := by exact_mod_cast hc
    rw [abs_of_nonpos hz.le, abs_of_nonpos h0]
    exact neg_le_neg (Int.le_ceil z)

theorem abs_lt_itrunc_add_one (z : ℝ) : |z| < |((itrunc z : ℤ) : ℝ)| + 1 := by
  unfold itrunc
  split_ifs with hz
  · have h0 : (0 : ℝ) ≤ ((⌊z⌋ : ℤ) : ℝ) := by
      exact_mod_cast Int.floor_nonneg.mpr hz
    rw [abs_of_nonneg hz, abs_of_nonneg h0]
    exact Int.lt_floor_add_one z
  · push_neg at hz
    have hc : ⌈z⌉ ≤ 0 := Int.ceil_le.mpr (by exact_mod_cast hz.le)
    have h0 : ((⌈z⌉ : ℤ) : ℝ) ≤ 0 := by exact_mod_cast hc
    rw [abs_of_neg hz, abs_of_nonpos h0]
    have hcl := Int.ceil_lt_add_one z
    linarith

theorem posFun_dist (radius : Int) (cw : Bool) (s : Int) (n i : ℕ)
    (h3 : 0 < radius) :
    (((posFun radius cw s n i).1 : ℝ) ^ 2 + ((posFun radius cw s n i).2 : ℝ) ^ 2
        ≤ ((radius : ℝ)) ^ 2) ∧
      ((radius : ℝ)) ^ 2 ≤ ((posFun radius cw s n i).1 : ℝ) ^ 2 +
        ((posFun radius cw s n i).2 : ℝ) ^ 2 + 4 * (radius : ℝ) + 2 := by
  have hr : (0 : ℝ) < (radius : ℝ) := by exact_mod_cast h3
  set θ := ringAngle cw s n i with hθ
  have hfst : (posFun radius cw s n i).1 = itrunc ((radius : ℝ) * Real.cos θ) := rfl
  have hsnd : (posFun radius cw s n i).2 = itrunc ((radius : ℝ) * Real.sin θ) := rfl
  rw [hfst, hsnd]
  set zx := (radius : ℝ) * Real.cos θ with hzx
  set zy := (radius : ℝ) * Real.sin θ with hzy
  have hx1 := abs_itrunc_le zx
  have hx2 := abs_lt_itrunc_add_one zx
  have hy1 := abs_itrunc_le zy
  have hy2 := abs_lt_itrunc_add_one zy
  have hzxr : |zx| ≤ (radius : ℝ) := by
    rw [hzx, abs_mul, abs_of_pos hr]
    nlinarith [Real.abs_cos_le_one θ, hr.le]
  have hzyr : |zy| ≤ (radius : ℝ) := by
    rw [hzy, abs_mul, abs_of_pos hr]
    nlinarith [Real.abs_sin_le_one θ, hr.le]
  have hpyth : zx ^ 2 + zy ^ 2 = ((radius : ℝ)) ^ 2 := by
    rw [hzx, hzy]
    nlinarith [Real.sin_sq_add_cos_sq θ]
  have hxsq : ((itrunc zx : ℤ) : ℝ) ^ 2 ≤ zx ^ 2 := by
    rw [← sq_abs ((itrunc zx : ℤ) : ℝ), ← sq_abs zx]
    exact pow_le_pow_left₀ (abs_nonneg _) hx1 2
  have hysq : ((itrunc zy : ℤ) : ℝ) ^ 2 ≤ zy ^ 2 := by
    rw [← sq_abs ((itrunc zy : ℤ) : ℝ), ← sq_abs zy]
    exact pow_le_pow_left₀ (abs_nonneg _) hy1 2
  have hxlow : zx ^ 2 ≤ ((itrunc zx : ℤ) : ℝ) ^ 2 + 2 * (radius : ℝ) + 1 := by
    have h4 : zx ^ 2 < (|((itrunc zx : ℤ) : ℝ)| + 1) ^ 2 := by
      rw [← sq_abs zx]
      exact pow_lt_pow_left₀ hx2 (abs_nonneg zx) (by norm_num)
    have h5 : |((itrunc zx : ℤ) : ℝ)| ≤ (radius : ℝ) := le_trans hx1 hzxr
    nlinarith [sq_abs ((itrunc zx : ℤ) : ℝ), abs_nonneg ((itrunc zx : ℤ) : ℝ)]
  have hylow : zy ^ 2 ≤ ((itrunc zy : ℤ) : ℝ) ^ 2 + 2 * (radius : ℝ) + 1 := by
    have h4 : zy ^ 2 < (|((itrunc zy : ℤ) : ℝ)| + 1) ^ 2 := by
      rw [← sq_abs zy]
      exact pow_lt_pow_left₀ hy2 (abs_nonneg zy) (by norm_num)
    have h5 : |((itrunc zy : ℤ) : ℝ)| ≤ (radius : ℝ) := le_trans hy1 hzyr
    nlinarith [sq_abs ((itrunc zy : ℤ) : ℝ), abs_nonneg ((itrunc zy : ℤ) : ℝ)]
  constructor
  · nlinarith
  · nlinarith

/-- C3 (amended): for distinct names the mapping's keys are exactly the
names in order (hence N distinct keys), the name at index `j` is mapped to
`(int(radius * cos(angle_j)), int(radius * sin(angle_j)))` — `int()`
truncation toward zero, not `round` — and every position lies at Euclidean
distance `radius` from the origin within rounding tolerance, expressed by
`x² + y² ≤ radius²` and `radius² ≤ x² + y² + 4·radius + 2`. -/
theorem c3_layout (names : List String) (radius : Int) (clockwise : Bool)
    (start_angle_deg : Int) (_h1 : names ≠ []) (h2 : names.Nodup)
    (h3 : 0 < radius) :
    (circle_positions names radius clockwise start_angle_deg).map Prod.fst = names ∧
    (circle_positions names radius clockwise start_angle_deg).length =
      names.length ∧
    (∀ j, j < names.length →
        (circle_positions names radius clockwise start_angle_deg).lookup
            (names.getD j "") =
          some (posFun radius clockwise start_angle_deg names.length j)) ∧
    (∀ m i, (((posFun radius clockwise start_angle_deg m i).1 : ℝ) ^ 2 +
          ((posFun radius clockwise start_angle_deg m i).2 : ℝ) ^ 2 ≤
            (radius : ℝ) ^ 2 ∧
        (radius : ℝ) ^ 2 ≤ ((posFun radius clockwise start_angle_deg m i).1 : ℝ) ^ 2 +
          ((posFun radius clockwise start_angle_deg m i).2 : ℝ) ^ 2 +
            4 * (radius : ℝ) + 2)) := by
  have hkeys := circlePosAux_fresh_keys radius clockwise start_angle_deg
    names.length names 0 [] h2 (by simp)
  refine ⟨?_, ?_, ?_, ?_⟩
  · simpa using hkeys
  · have hlen := congrArg List.length hkeys
    simpa using hlen
  · intro j hj
    have hlk := circlePosAux_lookup_fresh radius clockwise start_angle_deg
      names.length names j 0 [] h2 (by simp) hj
    simpa using hlk
  · intro m i
    exact posFun_dist radius clockwise start_angle_deg m i h3

/-- Witness for C3's amended theorem at a concrete nonempty duplicate-free
list and positive radius. -/
theorem c3_witness :
    (["a", "b", "c"] : List String) ≠ [] ∧ (["a", "b", "c"] : List String).Nodup ∧
      (0 : Int) < 5 ∧
      (circle_positions ["a", "b", "c"] 5 true 0).map Prod.fst = ["a", "b", "c"] :=
  ⟨by decide, by decide, by decide,
   (c3_layout ["a", "b", "c"] 5 true 0 (by decide) (by decide) (by decide)).1⟩

/-- Counterexample to C3 as stated: with names `a b c d e`, radius 200 and
start angle 90 (the defaults of the inner ring), the position stored for
`"c"` (index 2, angle −54°) is not the rounded value the claim prescribes:
the code truncates `200·sin(−54°) ≈ −161.8` to −161 where rounding gives
−162. -/
theorem c3_counterexample :
    (circle_positions ["a", "b", "c", "d", "e"] 200 true 90).lookup "c" ≠
      some (round ((200 : ℝ) * Real.cos (ringAngle true 90 5 2)),
            round ((200 : ℝ) * Real.sin (ringAngle true 90 5 2))) := by
  have hlookup : (circle_positions ["a", "b", "c", "d", "e"] 200 true 90).lookup "c" =
      some (posFun 200 true 90 5 2) := by
    have hlk := circlePosAux_lookup_fresh 200 true 90 5 ["a", "b", "c", "d", "e"]
      2 0 [] (by decide) (by simp) (by norm_num)
    simpa using hlk
  rw [hlookup]
  have h5lo : (2.23 : ℝ) < Real.sqrt 5 := by
    rw [show (2.23 : ℝ) = 2.23 from rfl, Real.lt_sqrt (by norm_num)]
    norm_num
  have h5hi : Real.sqrt 5 < 2.24 := by
    rw [Real.sqrt_lt' (by norm_num)]
    norm_num
  have hang : ringAngle true 90 5 2 = -(3 * Real.pi / 10) := by
    unfold ringAngle
    norm_num
    ring
  have hsin : Real.sin (ringAngle true 90 5 2) = -((1 + Real.sqrt 5) / 4) := by
    rw [hang, Real.sin_neg]
    have harg : (3 : ℝ) * Real.pi / 10 = Real.pi / 2 - Real.pi / 5 := by ring
    rw [harg, Real.sin_pi_div_two_sub, Real.cos_pi_div_five]
  have hz : (200 : ℝ) * Real.sin (ringAngle true 90 5 2) =
      -(50 + 50 * Real.sqrt 5) := by
    rw [hsin]
    ring
  have htr : itrunc ((200 : ℝ) * Real.sin (ringAngle true 90 5 2)) = -161 := by
    rw [hz]
    unfold itrunc
    rw [if_neg (by nlinarith [Real.sqrt_nonneg 5])]
    rw [Int.ceil_eq_iff]
    constructor
    · push_cast
      nlinarith
    · push_cast
      nlinarith
  have hro : round ((200 : ℝ) * Real.sin (ringAngle true 90 5 2)) = -162 := by
    rw [hz, round_eq, Int.floor_eq_iff]
    constructor
    · push_cast
      nlinarith
    · push_cast
      nlinarith
  intro heq
  rw [Option.some.injEq] at heq
  have h2 := congrArg Prod.snd heq
  simp only [posFun] at h2
  push_cast at h2
  rw [htr, hro] at h2
  norm_num at h2

theorem foldl_filter_append {α β : Type} (q : α → Prop) [DecidablePred q]
    (f : α → β) :
    ∀ (l : List α) (acc : List β),
      l.foldl (fun a x => if q x then a ++ [f x] else a) acc =
        acc ++ (l.filter (fun x => decide (q x))).map f := by
  intro l
  induction l with
  | nil => intro acc; simp
  | cons a rest ih =>
    intro acc
    by_cases hq : q a
    · simp [List.foldl_cons, hq, ih]
    · simp [List.foldl_cons, hq, ih]

theorem crossEdges_eq (cfg : DiagramConfig) :
    crossEdges cfg =
      if cfg.show_cross_links then
        (cfg.cross_links.filter (fun p =>
          decide (p.1 ∈ cfg.outer_nodes ∧ p.2 ∈ cfg.inner_nodes))).map mkCrossEdge
      else [] := by
  unfold crossEdges
  split_ifs with h
  · rw [foldl_filter_append]
    simp
  · rfl

theorem mem_crossEdges {cfg : DiagramConfig} {e : VisEdge}
    (he : e ∈ crossEdges cfg) :
    cfg.show_cross_links = true ∧
      ∃ p ∈ cfg.cross_links, p.1 ∈ cfg.outer_nodes ∧ p.2 ∈ cfg.inner_nodes ∧
        e = mkCrossEdge p := by
  rw [crossEdges_eq] at he
  split_ifs at he with hs
  · refine ⟨hs, ?_⟩
    obtain ⟨p, hp, rfl⟩ := List.mem_map.mp he
    obtain ⟨hpl, hcond⟩ := List.mem_filter.mp hp
    simp only [decide_eq_true_eq] at hcond
    exact ⟨p, hpl, hcond.1, hcond.2, rfl⟩
  · simp at he

theorem ring_edges_not_dashed {cfg : DiagramConfig} {e : VisEdge}
    (he : e ∈ outerRingEdges cfg ++ innerRingEdges cfg) : e.dashes = false := by
  rcases List.mem_append.mp he with h | h
  · obtain ⟨i, _, rfl⟩ := List.mem_map.mp h
    rfl
  · obtain ⟨i, _, rfl⟩ := List.mem_map.mp h
    rfl

theorem edge_label_eq_find (u v : String) (pool : List Edge) :
    edge_label u v pool =
      ((pool.find? (fun e => decide ((e.source = u ∧ e.target = v) ∨
          (e.source = v ∧ e.target = u)))).map Edge.label).getD "" := by
  induction pool with
  | nil => rfl
  | cons e rest ih =>
    by_cases hc : (e.source = u ∧ e.target = v) ∨ (e.source = v ∧ e.target = u)
    · rw [edge_label, if_pos hc, List.find?_cons_of_pos _ (by simpa using hc)]
      rfl
    · rw [edge_label, if_neg hc, List.find?_cons_of_neg _ (by simpa using hc)]
      exact ih

/-- C7: the dashed edges of the built graph are exactly the cross-link
edges: none at all when `show_cross_links` is false, regardless of the
stored pairs; otherwise one dashed, gray, `"to"`-arrowed, unlabeled
outer→inner edge per stored pair whose endpoints both exist in the current
node lists, every other pair contributing nothing, without error. -/
theorem c7_cross_link_edges (cfg : DiagramConfig) :
    (build_network cfg).edges.filter (fun e => e.dashes) =
      (if cfg.show_cross_links then
        (cfg.cross_links.filter (fun p =>
          decide (p.1 ∈ cfg.outer_nodes ∧ p.2 ∈ cfg.inner_nodes))).map mkCrossEdge
       else []) := by
  have hedges : (build_network cfg).edges =
      (outerRingEdges cfg ++ innerRingEdges cfg) ++ crossEdges cfg := by
    rw [build_network, List.append_assoc]
  rw [hedges, List.filter_append]
  have h1 : (outerRingEdges cfg ++ innerRingEdges cfg).filter
      (fun e => e.dashes) = [] := by
    rw [List.filter_eq_nil_iff]
    intro e he
    simp [ring_edges_not_dashed he]
  have h2 : (crossEdges cfg).filter (fun e => e.dashes) = crossEdges cfg := by
    rw [List.filter_eq_self]
    intro e he
    obtain ⟨_, p, _, _, _, rfl⟩ := mem_crossEdges he
    rfl
  rw [h1, h2, crossEdges_eq]
  simp

/-- C4: the graph builder emits exactly one outer ring edge per index —
from node `i` to node `(i+1) mod N`, with no arrowhead — and exactly one
inner ring edge per index — from node `i` to node `(i−1) mod N`, with an
arrowhead at the target; each ring edge's label is the label of the first
stored edge matching the node pair in either direction, and `""` when no
stored edge matches. -/
theorem c4_ring_edges (cfg : DiagramConfig) (i : ℕ) :
    (outerRingEdges cfg).length = cfg.outer_nodes.length ∧
    (innerRingEdges cfg).length = cfg.inner_nodes.length ∧
    ((outerRingEdges cfg)[i]? =
      if i < cfg.outer_nodes.length then
        some (mkOuterEdge (cfg.outer_nodes.getD i "")
          (cfg.outer_nodes.getD ((i + 1) % cfg.outer_nodes.length) "")
          cfg.outer_edges)
      else none) ∧
    ((innerRingEdges cfg)[i]? =
      if i < cfg.inner_nodes.length then
        some (mkInnerEdge (cfg.inner_nodes.getD i "")
          (cfg.inner_nodes.getD
            (((i : Int) - 1) % (cfg.inner_nodes.length : Int)).toNat "")
          cfg.inner_edges)
      else none) ∧
    (∀ u v pool, (mkOuterEdge u v pool).arrows = "" ∧
        (mkInnerEdge u v pool).arrows = "to" ∧
        (mkOuterEdge u v pool).label = some (edge_label u v pool) ∧
        (mkInnerEdge u v pool).label = some (edge_label u v pool)) ∧
    (∀ u v pool, edge_label u v pool =
        ((pool.find? (fun e => decide ((e.source = u ∧ e.target = v) ∨
            (e.source = v ∧ e.target = u)))).map Edge.label).getD "") := by
  refine ⟨by simp [outerRingEdges], by simp [innerRingEdges], ?_, ?_,
    fun u v pool => ⟨rfl, rfl, rfl, rfl⟩, fun u v pool => edge_label_eq_find u v pool⟩
  · rw [outerRingEdges, List.getElem?_map]
    by_cases hi : i < cfg.outer_nodes.length
    · rw [List.getElem?_range hi, if_pos hi]
      rfl
    · rw [List.getElem?_eq_none (by simpa using hi), if_neg hi]
      rfl
  · rw [innerRingEdges, List.getElem?_map]
    by_cases hi : i < cfg.inner_nodes.length
    · rw [List.getElem?_range hi, if_pos hi]
      rfl
    · rw [List.getElem?_eq_none (by simpa using hi), if_neg hi]
      rfl

/-- C8: building the graph does not mutate the configuration — the
state-passing translation of `build_network` returns the configuration
unchanged — and in particular a stored cross-link pair with a missing
endpoint, while contributing no (dashed) cross-link edge to the built
graph, is still present in the configuration's `cross_links` after the
build. -/
theorem c8_build_preserves_config (cfg : DiagramConfig) :
    (build_network_proc cfg).2 = cfg ∧
    (∀ p ∈ cfg.cross_links, (p.1 ∉ cfg.outer_nodes ∨ p.2 ∉ cfg.inner_nodes) →
      (∀ e ∈ ((build_network_proc cfg).1).edges,
          ¬(e.dashes = true ∧ e.src = p.1 ∧ e.dst = p.2)) ∧
      p ∈ ((build_network_proc cfg).2).cross_links) := by
  refine ⟨rfl, ?_⟩
  intro p hp hbad
  refine ⟨?_, hp⟩
  intro e he
  rintro ⟨hd, hsrc, hdst⟩
  have hedges : ((build_network_proc cfg).1).edges =
      (outerRingEdges cfg ++ innerRingEdges cfg) ++ crossEdges cfg := by
    show (build_network cfg).edges = _
    rw [build_network, List.append_assoc]
  rw [hedges] at he
  rcases List.mem_append.mp he with hring | hcross
  · rw [ring_edges_not_dashed hring] at hd
    exact Bool.false_ne_true hd
  · obtain ⟨_, q, _, hq1, hq2, rfl⟩ := mem_crossEdges hcross
    rcases hbad with hb | hb
    · exact hb (hsrc ▸ hq1)
    · exact hb (hdst ▸ hq2)

/-- Witness for C8: a configuration holding the invalid pair
`("Ghost", "Knowledge")` keeps it in `cross_links` after the build. -/
theorem c8_witness :
    ("Ghost", "Knowledge") ∈
      ((build_network_proc
        { default_config with cross_links := [("Ghost", "Knowledge")] }).2).cross_links :=
  ((c8_build_preserves_config
      { default_config with cross_links := [("Ghost", "Knowledge")] }).2
    ("Ghost", "Knowledge") (by decide) (Or.inl (by decide))).2

/-- Counterexample to C2 as stated: the traversal defined in the spec
starts at `i = 0`, whose pair is Knowledge → Interactions with label
"Informs further", so the label sequence is not the claimed one (which
begins with "Interpreted as"). -/
theorem c2_counterexample :
    ¬((innerRingEdges default_config).map (fun e => e.label) =
      [some "Interpreted as", some "Ordered as", some "Processed as",
       some "Produce", some "Informs further"]) := by
  decide

/-- C2 (amended): for the default configuration the inner ring has exactly
5 directed (`"to"`-arrowed) edges whose labels in traversal order (node i
to node i−1 mod N, starting at i = 0) are ["Informs further",
"Interpreted as", "Ordered as", "Processed as", "Produce"] — the claimed
list rotated by one position; the outer ring has exactly 5 arrowless edges
with empty labels; and, `show_cross_links` being true by default, there are
exactly 25 = 5 × 5 cross-link edges. -/
theorem c2_default_graph :
    (innerRingEdges default_config).map (fun e => e.label) =
      [some "Informs further", some "Interpreted as", some "Ordered as",
       some "Processed as", some "Produce"] ∧
    (∀ e ∈ innerRingEdges default_config, e.arrows = "to") ∧
    (innerRingEdges default_config).length = 5 ∧
    (∀ e ∈ outerRingEdges default_config, e.arrows = "" ∧ e.label = some "") ∧
    (outerRingEdges default_config).length = 5 ∧
    default_config.show_cross_links = true ∧
    (crossEdges default_config).length =
      default_config.outer_nodes.length * default_config.inner_nodes.length := by
  refine ⟨by decide, by decide, by decide, by decide, by decide, by decide, by decide⟩

end EpistemicApp
